import Mathlib

/-!
Verification of the waveform synthesis / gesture control engine
(`script.js`, `handGestures.js`) against its natural-language specification.
JavaScript numbers are idealised as real numbers; JavaScript integer
quantities are modelled as `Nat`/`Int`.
-/

open Real

namespace Waveform

/-- Truncation toward zero on the reals, as performed by the JavaScript
remainder operator when computing its implicit quotient. -/
noncomputable def jsTrunc (x : ℝ) : ℝ := if 0 ≤ x then (⌊x⌋ : ℝ) else (⌈x⌉ : ℝ)

/-- The JavaScript `%` operator on numbers: remainder carrying the sign of
the dividend, `a - b * trunc (a / b)`. -/
noncomputable def jsRem (a b : ℝ) : ℝ := a - b * jsTrunc (a / b)

/-- Wave types selectable in the UI (`this.waveType` strings). -/
inductive WaveType
  | sine
  | square
  | sawtooth
  | triangle
  | custom
  deriving DecidableEq

/-- `generateBaseWaveform(t)` from `script.js` (lines 656-690), with the
instance fields passed explicitly.  The `custom` wave type falls through to
the `default` branch of the `switch`, which returns a sine.  The local
variables `riseProgress` and `smoothedRise` of the rise branch and
`sawValue` of the triangle branch are inlined. -/
noncomputable def generateBaseWaveform (waveType : WaveType)
    (frequency phase smoothing dutyCycle t : ℝ) : ℝ :=
  match waveType with
  | .sine => Real.sin (2 * π * frequency * t + phase)
  | .square =>
    let squarePhase := jsRem (2 * π * frequency * t + phase) (2 * π)
    let normalizedPhase := squarePhase / (2 * π)
    let dutyCycleRatio := dutyCycle / 100
    let maxRiseTime := dutyCycleRatio * 0.5
    let riseTime := min (smoothing * 0.5) maxRiseTime
    if normalizedPhase < riseTime then
      -1 + 2 * (1 - Real.exp (-5 * (normalizedPhase / riseTime)))
    else if normalizedPhase < dutyCycleRatio then
      1
    else
      -1
  | .sawtooth => 2 * jsRem (frequency * t + phase / (2 * π)) 1 - 1
  | .triangle => 2 * |2 * jsRem (frequency * t + phase / (2 * π)) 1 - 1| - 1
  | .custom => Real.sin (2 * π * frequency * t + phase)

/-- The square-wave value exactly as the specification words it, with
`p = frac((2πft + φ)/(2π))` read as the mathematical fractional part
(`Int.fract`).  Written from the spec for comparison with
`generateBaseWaveform`. -/
noncomputable def specSquareValue (frequency phase smoothing dutyCycle t : ℝ) : ℝ :=
  let p := Int.fract ((2 * π * frequency * t + phase) / (2 * π))
  let r := min (smoothing * 0.5) (dutyCycle / 100 * 0.5)
  if p < r then
    -1 + 2 * (1 - Real.exp (-5 * (p / r)))
  else if p < dutyCycle / 100 then
    1
  else
    -1

lemma jsTrunc_of_nonneg {x : ℝ} (hx : 0 ≤ x) : jsTrunc x = (⌊x⌋ : ℝ) := by
  simp [jsTrunc, hx]

lemma jsRem_eq_fract {a b : ℝ} (ha : 0 ≤ a) (hb : 0 < b) :
    jsRem a b = b * Int.fract (a / b) := by
  have hq : 0 ≤ a / b := div_nonneg ha hb.le
  have hcancel : b * (a / b) = a := by field_simp
  rw [jsRem, jsTrunc_of_nonneg hq, Int.fract, mul_sub, hcancel]

/-- **C1** (amended).  For the square wave, the code's value agrees with the
spec's piecewise formula whenever the raw phase argument `2πft + φ` is
nonnegative (so that the JavaScript remainder coincides with the
mathematical fractional part). -/
theorem C1_square_matches_spec (t f phi s d : ℝ)
    (ht : 0 ≤ t) (hf : 0 < f) (hphase : 0 ≤ 2 * π * f * t + phi)
    (hs0 : 0 ≤ s) (hs1 : s ≤ 1) (hd1 : 1 < d) (hd2 : d ≤ 99) :
    generateBaseWaveform .square f phi s d t = specSquareValue f phi s d t := by
  have h2pi : (0 : ℝ) < 2 * π := by positivity
  simp only [generateBaseWaveform, specSquareValue]
  rw [jsRem_eq_fract hphase h2pi, mul_div_cancel_left₀ _ h2pi.ne']

/-- Witness for `C1_square_matches_spec` at `t = 0`, `f = 1`, `φ = 0`,
`s = 0.5`, `d = 50`. -/
theorem C1_square_matches_spec_witness :
    generateBaseWaveform .square 1 0 0.5 50 0 = specSquareValue 1 0 0.5 50 0 :=
  C1_square_matches_spec 0 1 0 0.5 50 le_rfl one_pos (by norm_num)
    (by norm_num) (by norm_num) (by norm_num) (by norm_num)

lemma jsTrunc_neg_half : jsTrunc (-(1 / 2) : ℝ) = 0 := by
  have h : ¬ (0 : ℝ) ≤ -(1 / 2) := by norm_num
  rw [jsTrunc, if_neg h]
  norm_num

/-- **C1** counterexample.  At `t = 0`, `f = 1`, `φ = -π`, `s = 0.5`,
`d = 50` the code's JavaScript remainder yields a negative normalized phase
(`-1/2`), entering the rise branch and producing `-1 + 2(1 - e^10)`, while
the spec's `frac` gives `p = 1/2` and the value `-1`.  The claim as stated
(over all phases) is therefore false. -/
theorem C1_counterexample :
    generateBaseWaveform .square 1 (-π) 0.5 50 0 ≠ specSquareValue 1 (-π) 0.5 50 0 := by
  have hpi : (0 : ℝ) < π := Real.pi_pos
  have harg : 2 * π * 1 * 0 + -π = -π := by ring
  have hdiv : (-π) / (2 * π) = -(1 / 2) := by
    rw [div_eq_iff (by positivity : (2 : ℝ) * π ≠ 0)]
    ring
  have hrem : jsRem (-π) (2 * π) = -π := by
    rw [jsRem, hdiv, jsTrunc_neg_half]
    ring
  have hmin : min ((0.5 : ℝ) * 0.5) (50 / 100 * 0.5) = 0.25 := by
    rw [show (0.5 : ℝ) * 0.5 = 0.25 by norm_num, show (50 : ℝ) / 100 * 0.5 = 0.25 by norm_num,
      min_self]
  have hcode : generateBaseWaveform .square 1 (-π) 0.5 50 0 = -1 + 2 * (1 - Real.exp 10) := by
    simp only [generateBaseWaveform]
    rw [harg, hrem, hdiv, hmin, if_pos (by norm_num : (-(1 / 2) : ℝ) < 0.25)]
    norm_num
  have hfract : Int.fract (-(1 / 2) : ℝ) = 1 / 2 := by
    have half : Int.fract ((1 / 2) : ℝ) = 1 / 2 := Int.fract_eq_self.mpr (by norm_num)
    rw [Int.fract_neg (by rw [half]; norm_num), half]
    norm_num
  have hspec : specSquareValue 1 (-π) 0.5 50 0 = -1 := by
    simp only [specSquareValue]
    rw [harg, hdiv, hfract, hmin, if_neg (by norm_num : ¬ ((1 / 2) : ℝ) < 0.25),
      if_neg (by norm_num : ¬ ((1 / 2) : ℝ) < 50 / 100)]
  rw [hcode, hspec]
  intro h
  have hexp : Real.exp 10 = 1 := by linarith
  have hgt : (10 : ℝ) + 1 ≤ Real.exp 10 := Real.add_one_le_exp 10
  linarith

/-- One sample of the period-relative smoothed square wave generated by
`createSmoothedSquareWave` (`script.js` lines 1352-1370): `t = i / samples`
runs over one full cycle, using the same rise-time / duty-cycle formula as
the base waveform. -/
noncomputable def squareWaveSample (smoothing dutyCycle : ℝ) (samples i : ℕ) : ℝ :=
  let t : ℝ := (i : ℝ) / (samples : ℝ)
  let dutyCycleRatio := dutyCycle / 100
  let maxRiseTime := dutyCycleRatio * 0.5
  let riseTime := min (smoothing * 0.5) maxRiseTime
  if t < riseTime then
    -1 + 2 * (1 - Real.exp (-5 * (t / riseTime)))
  else if t < dutyCycleRatio then
    1
  else
    -1

/-- The accumulation loop `realSum += waveformSamples[n] * Math.cos(angle)`
of `createSmoothedSquareWave` (lines 1373-1381), as a left fold in the same
order as the JavaScript loop. -/
noncomputable def fourierRealSum (smoothing dutyCycle : ℝ) (samples h : ℕ) : ℝ :=
  (List.range samples).foldl
    (fun acc n => acc + squareWaveSample smoothing dutyCycle samples n *
      Real.cos (2 * π * (h : ℝ) * (n : ℝ) / (samples : ℝ))) 0

/-- The accumulation loop `imagSum += waveformSamples[n] * Math.sin(angle)`
of `createSmoothedSquareWave`, as a left fold. -/
noncomputable def fourierImagSum (smoothing dutyCycle : ℝ) (samples h : ℕ) : ℝ :=
  (List.range samples).foldl
    (fun acc n => acc + squareWaveSample smoothing dutyCycle samples n *
      Real.sin (2 * π * (h : ℝ) * (n : ℝ) / (samples : ℝ))) 0

/-- The `real` coefficient array built by `createSmoothedSquareWave`
(lines 1344-1385): a `Float32Array(32)` whose index 0 stays at its zero
initialisation and whose indices 1..31 receive `(2/samples) * realSum`. -/
noncomputable def createSmoothedSquareWaveReal (smoothing dutyCycle : ℝ) : List ℝ :=
  (List.range 32).map fun h =>
    if h = 0 then 0 else (2 / 1024) * fourierRealSum smoothing dutyCycle 1024 h

/-- The `imag` coefficient array built by `createSmoothedSquareWave`:
index 0 stays zero, indices 1..31 receive `-(2/samples) * imagSum`. -/
noncomputable def createSmoothedSquareWaveImag (smoothing dutyCycle : ℝ) : List ℝ :=
  (List.range 32).map fun h =>
    if h = 0 then 0 else -((2 / 1024) * fourierImagSum smoothing dutyCycle 1024 h)

lemma foldl_add_eq_sum (f : ℕ → ℝ) (a : ℝ) :
    ∀ N : ℕ, (List.range N).foldl (fun acc n => acc + f n) a =
      a + ∑ n ∈ Finset.range N, f n := by
  intro N
  induction N generalizing a with
  | zero => simp
  | succ n ih =>
    rw [List.range_succ, List.foldl_append, ih, Finset.sum_range_succ]
    simp [add_assoc]

/-- **C2**.  `createSmoothedSquareWave` produces coefficient arrays of
length 32 with `real[0] = imag[0] = 0` and, for each harmonic `1 ≤ h < 32`,
`real[h] = (2/N) * Σ_{n<N} sample[n]·cos(2πhn/N)` and
`imag[h] = -(2/N) * Σ_{n<N} sample[n]·sin(2πhn/N)` with `N = 1024` samples
of one period of the square-wave shape. -/
theorem C2_fourier_coefficients (smoothing dutyCycle : ℝ) :
    (createSmoothedSquareWaveReal smoothing dutyCycle).length = 32 ∧
    (createSmoothedSquareWaveImag smoothing dutyCycle).length = 32 ∧
    (createSmoothedSquareWaveReal smoothing dutyCycle).get? 0 = some 0 ∧
    (createSmoothedSquareWaveImag smoothing dutyCycle).get? 0 = some 0 ∧
    (∀ h : ℕ, 1 ≤ h → h < 32 →
      (createSmoothedSquareWaveReal smoothing dutyCycle).get? h =
        some ((2 / 1024) * ∑ n ∈ Finset.range 1024,
          squareWaveSample smoothing dutyCycle 1024 n *
            Real.cos (2 * π * (h : ℝ) * (n : ℝ) / 1024)) ∧
      (createSmoothedSquareWaveImag smoothing dutyCycle).get? h =
        some (-((2 / 1024) * ∑ n ∈ Finset.range 1024,
          squareWaveSample smoothing dutyCycle 1024 n *
            Real.sin (2 * π * (h : ℝ) * (n : ℝ) / 1024)))) := by
  refine ⟨by simp [createSmoothedSquareWaveReal],
    by simp [createSmoothedSquareWaveImag],
    by simp [createSmoothedSquareWaveReal],
    by simp [createSmoothedSquareWaveImag],
    fun h h1 h32 => ⟨?_, ?_⟩⟩
  · rw [createSmoothedSquareWaveReal, List.get?_map, List.get?_range h32]
    simp only [Option.map_some']
    rw [if_neg (by omega), fourierRealSum, foldl_add_eq_sum, zero_add]
    norm_num
  · rw [createSmoothedSquareWaveImag, List.get?_map, List.get?_range h32]
    simp only [Option.map_some']
    rw [if_neg (by omega), fourierImagSum, foldl_add_eq_sum, zero_add]
    norm_num

/-- Witness for `C2_fourier_coefficients` at `smoothing = 0.5`,
`dutyCycle = 50`, harmonic `h = 1`. -/
theorem C2_fourier_coefficients_witness :
    (createSmoothedSquareWaveReal 0.5 50).get? 1 =
      some ((2 / 1024) * ∑ n ∈ Finset.range 1024,
        squareWaveSample 0.5 50 1024 n *
          Real.cos (2 * π * ((1 : ℕ) : ℝ) * (n : ℝ) / 1024)) :=
  (((C2_fourier_coefficients 0.5 50).2.2.2.2 1 (by norm_num) (by norm_num)).1)

/-- One entry of `this.harmonics`: multiplier, amplitude and phase
(degrees). -/
structure Harmonic where
  multiplier : ℝ
  amplitude : ℝ
  phase : ℝ

/-- The synthesis parameters read by `updateWaveform` (`script.js`
lines 695-739).  `sampleRate = 44100` and `bufferSize = 2048` are fixed in
the constructor (lines 52-53). -/
structure SynthParams where
  waveType : WaveType
  frequency : ℝ
  amplitude : ℝ
  phase : ℝ
  smoothing : ℝ
  dutyCycle : ℝ
  harmonics : List Harmonic
  amEnabled : Bool
  amFreq : ℝ
  amDepth : ℝ
  fmEnabled : Bool
  fmFreq : ℝ
  fmDepth : ℝ

/-- The sample value computed by one iteration of the `updateWaveform` loop
(`script.js` lines 700-737) at buffer index `i`: base waveform, plus
harmonics, amplitude modulation, then — if FM is enabled — the sample is
recomputed from scratch as a phase-modulated sine stack (discarding the AM
product, exactly as the code's reassignment does), otherwise scaled by the
amplitude; finally hard-clipped to `[-1, 1]`. -/
noncomputable def updateWaveformSample (p : SynthParams) (i : ℕ) : ℝ :=
  let t : ℝ := (i : ℝ) * (1 / 44100)
  let base := generateBaseWaveform p.waveType p.frequency p.phase p.smoothing p.dutyCycle t
  let withHarmonics := p.harmonics.foldl
    (fun s h => s + h.amplitude *
      Real.sin (2 * π * (p.frequency * h.multiplier) * t + (p.phase + h.phase * π / 180)))
    base
  let afterAM := if p.amEnabled then
      withHarmonics * (1 + p.amDepth * Real.sin (2 * π * p.amFreq * t))
    else withHarmonics
  let final := if p.fmEnabled then
      p.harmonics.foldl
        (fun s h => s + h.amplitude *
          Real.sin (2 * π * (p.frequency * h.multiplier +
            p.fmDepth * Real.sin (2 * π * p.fmFreq * t)) * t + (p.phase + h.phase * π / 180)))
        (p.amplitude * Real.sin (2 * π * (p.frequency +
          p.fmDepth * Real.sin (2 * π * p.fmFreq * t)) * t + p.phase))
    else afterAM * p.amplitude
  max (-1) (min 1 final)

/-- The full `waveformData` buffer written by `updateWaveform`: 2048
samples. -/
noncomputable def updateWaveform (p : SynthParams) : List ℝ :=
  (List.range 2048).map (updateWaveformSample p)

/-- **C3**.  For every parameter combination, the buffer written by
`updateWaveform` has 2048 entries and every stored sample lies in
`[-1, 1]` (the final `Math.max(-1, Math.min(1, sample))` clamp). -/
theorem C3_buffer_clamped (p : SynthParams) :
    (updateWaveform p).length = 2048 ∧
    ∀ x ∈ updateWaveform p, -1 ≤ x ∧ x ≤ 1 := by
  constructor
  · simp [updateWaveform]
  · intro x hx
    rw [updateWaveform, List.mem_map] at hx
    obtain ⟨i, -, rfl⟩ := hx
    rw [updateWaveformSample]
    refine ⟨le_max_left _ _, max_le (by norm_num) (min_le_left _ _)⟩

/-- Witness for `C3_buffer_clamped`: a pathological harmonic stack of ten
harmonics at amplitude 1 still yields a buffer with every sample in
`[-1, 1]`. -/
theorem C3_buffer_clamped_witness :
    -1 ≤ updateWaveformSample
      ⟨.sine, 440, 1, 0, 0.5, 50,
        (List.range 10).map (fun k => ⟨(k : ℝ) + 2, 1, 0⟩),
        false, 5, 0.5, false, 5, 100⟩ 0 ∧
    updateWaveformSample
      ⟨.sine, 440, 1, 0, 0.5, 50,
        (List.range 10).map (fun k => ⟨(k : ℝ) + 2, 1, 0⟩),
        false, 5, 0.5, false, 5, 100⟩ 0 ≤ 1 :=
  (C3_buffer_clamped _).2 _ (by
    rw [updateWaveform, List.mem_map]
    exact ⟨0, by simp, rfl⟩)

/-- One melody entry `[noteName, duration]` (duration in whole-note
fractions). -/
structure SongNote where
  name : String
  duration : ℝ

/-- The loaded melody guide: name, tempo in BPM, and the ordered note
list. -/
structure Melody where
  name : String
  tempo : ℝ
  notes : List SongNote

/-- The song-guide portion of the synthesizer state (`script.js`
lines 2357-2365): the timer handle `noteHoldTimer` is modelled by the flag
`noteHoldTimerRunning`, the `startTime` captured by `startNoteTimer`'s
closure by `noteHoldStartTime`, and a scheduled rest timeout by
`restTimerPending`. -/
structure TrainerState where
  songGuideActive : Bool
  keyboardOverlayPresent : Bool
  currentSongNoteIndex : ℕ
  noteHoldTimerRunning : Bool
  noteHoldStartTime : ℝ
  noteHoldDuration : ℝ
  requiredHoldTime : ℝ
  restTimerPending : Bool

/-- `clearNoteTimer` (`script.js` lines 2631-2644): cancel the frame timer
and reset the accumulated hold duration to zero. -/
def clearNoteTimer (s : TrainerState) : TrainerState :=
  { s with noteHoldTimerRunning := false, noteHoldDuration := 0 }

/-- `startNoteTimer` (lines 2600-2626): capture the current time, zero the
hold duration and schedule the frame-driven update. -/
def startNoteTimer (now : ℝ) (s : TrainerState) : TrainerState :=
  { s with noteHoldStartTime := now, noteHoldDuration := 0, noteHoldTimerRunning := true }

/-- `handleRestNote` (lines 2649-2661): schedule a rest timeout. -/
def handleRestNote (s : TrainerState) : TrainerState :=
  { s with restTimerPending := true }

/-- `updateSongGuideDisplay` (lines 2682-2717), state part only: when the
song guide is active and the keyboard overlay exists and the current index
is in range, set `requiredHoldTime = (60 / tempo) * 1000 * (duration / 0.25)`
and start the rest timeout if the target is a rest.  The code's negated
early-return guards are written as positive conditions. -/
noncomputable def updateSongGuideDisplay (m : Melody) (s : TrainerState) : TrainerState :=
  if s.songGuideActive ∧ s.keyboardOverlayPresent then
    if h : s.currentSongNoteIndex < m.notes.length then
      let note := m.notes.get ⟨s.currentSongNoteIndex, h⟩
      let s1 := { s with requiredHoldTime := 60 / m.tempo * 1000 * (note.duration / 0.25) }
      if note.name.trim = "" ∨ note.name = " " then handleRestNote s1 else s1
    else s
  else s

/-- `advanceToNextNote` (lines 2666-2677): increment the melody index,
wrapping to 0 at the end, then refresh the display. -/
noncomputable def advanceToNextNote (m : Melody) (s : TrainerState) : TrainerState :=
  let s1 := { s with currentSongNoteIndex := s.currentSongNoteIndex + 1 }
  if m.notes.length ≤ s1.currentSongNoteIndex then
    updateSongGuideDisplay m { s1 with currentSongNoteIndex := 0 }
  else
    updateSongGuideDisplay m s1

/-- `handleSongGuideInput(noteIndex)` (lines 2576-2595): while the guide is
active and a target note remains, pinching the target note starts the hold
timer (if not already running) and pinching any other note clears it.  The
code's negated early-return guard is written as a positive condition; the
possibly-undefined `this.noteNames[noteIndex]` is an `Option` lookup. -/
noncomputable def handleSongGuideInput (m : Melody) (noteNames : List String)
    (noteIndex : ℕ) (now : ℝ) (s : TrainerState) : TrainerState :=
  if h : s.songGuideActive ∧ s.currentSongNoteIndex < m.notes.length then
    let target := m.notes.get ⟨s.currentSongNoteIndex, h.2⟩
    if noteNames.get? noteIndex = some target.name then
      if s.noteHoldTimerRunning then s else startNoteTimer now s
    else
      clearNoteTimer s
  else s

/-- One invocation of the `updateTimer` frame callback installed by
`startNoteTimer` (lines 2604-2623): recompute the held duration from the
captured start time; once it reaches `requiredHoldTime`, advance to the
next note and clear the timer. -/
noncomputable def noteTimerTick (m : Melody) (now : ℝ) (s : TrainerState) : TrainerState :=
  if ¬ s.noteHoldTimerRunning then s
  else
    let s1 := { s with noteHoldDuration := now - s.noteHoldStartTime }
    if s1.requiredHoldTime ≤ s1.noteHoldDuration then
      clearNoteTimer (advanceToNextNote m s1)
    else
      s1

lemma updateSongGuideDisplay_index (m : Melody) (s : TrainerState) :
    (updateSongGuideDisplay m s).currentSongNoteIndex = s.currentSongNoteIndex := by
  rw [updateSongGuideDisplay]
  split
  · split
    · dsimp only
      split
      · rfl
      · rfl
    · rfl
  · rfl

/-- **C4**.  (1) With the song guide active and a current target note of
duration `d` in a melody at tempo `T`, `updateSongGuideDisplay` sets the
required hold time to `(60000 / T) * (d / 0.25)` milliseconds.  (2) While
the guide is active, pinching a note whose name differs from the target
resets the accumulated hold duration to 0.  (3) A timer tick that finds the
target note held for at least the required time advances the melody index
by one (when it is not the final note). -/
theorem C4_trainer_hold_timing :
    (∀ (m : Melody) (s : TrainerState) (h : s.currentSongNoteIndex < m.notes.length),
      0 < m.tempo →
      s.songGuideActive = true → s.keyboardOverlayPresent = true →
      (updateSongGuideDisplay m s).requiredHoldTime =
        60000 / m.tempo * ((m.notes.get ⟨s.currentSongNoteIndex, h⟩).duration / 0.25)) ∧
    (∀ (m : Melody) (noteNames : List String) (noteIndex : ℕ) (now : ℝ)
      (s : TrainerState) (h : s.currentSongNoteIndex < m.notes.length),
      s.songGuideActive = true →
      noteNames.get? noteIndex ≠ some (m.notes.get ⟨s.currentSongNoteIndex, h⟩).name →
      (handleSongGuideInput m noteNames noteIndex now s).noteHoldDuration = 0) ∧
    (∀ (m : Melody) (now : ℝ) (s : TrainerState),
      s.noteHoldTimerRunning = true →
      s.requiredHoldTime ≤ now - s.noteHoldStartTime →
      s.currentSongNoteIndex + 1 < m.notes.length →
      (noteTimerTick m now s).currentSongNoteIndex = s.currentSongNoteIndex + 1) := by
  refine ⟨?_, ?_, ?_⟩
  · intro m s h htempo hact hkb
    rw [updateSongGuideDisplay, if_pos ⟨hact, hkb⟩, dif_pos h]
    have key : 60 / m.tempo * 1000 *
        ((m.notes.get ⟨s.currentSongNoteIndex, h⟩).duration / 0.25) =
        60000 / m.tempo * ((m.notes.get ⟨s.currentSongNoteIndex, h⟩).duration / 0.25) := by
      ring
    dsimp only
    split
    · rw [handleRestNote]
      exact key
    · exact key
  · intro m noteNames noteIndex now s h hact hne
    rw [handleSongGuideInput, dif_pos ⟨hact, h⟩, if_neg hne, clearNoteTimer]
  · intro m now s hrun hheld hlt
    rw [noteTimerTick, if_neg (by simp [hrun]), if_pos hheld, clearNoteTimer]
    show (advanceToNextNote m _).currentSongNoteIndex = _
    rw [advanceToNextNote]
    rw [if_neg (by simpa using Nat.not_le.mpr hlt)]
    rw [updateSongGuideDisplay_index]

/-- Witness for `C4_trainer_hold_timing`: the melody
`{tempo: 60, notes: [("A4", 0.25), ("C5", 0.25)]}` requires a 1000 ms hold
for its first note; pinching "B4" resets the hold; a tick after 1000 ms of
holding "A4" advances to index 1. -/
theorem C4_trainer_hold_timing_witness :
    (updateSongGuideDisplay ⟨"demo", 60, [⟨"A4", 0.25⟩, ⟨"C5", 0.25⟩]⟩
      ⟨true, true, 0, false, 0, 0, 500, false⟩).requiredHoldTime = 1000 ∧
    (handleSongGuideInput ⟨"demo", 60, [⟨"A4", 0.25⟩, ⟨"C5", 0.25⟩]⟩
      ["A4", "B4"] 1 0 ⟨true, true, 0, true, 0, 250, 1000, false⟩).noteHoldDuration = 0 ∧
    (noteTimerTick ⟨"demo", 60, [⟨"A4", 0.25⟩, ⟨"C5", 0.25⟩]⟩ 1000
      ⟨true, true, 0, true, 0, 0, 1000, false⟩).currentSongNoteIndex = 1 := by
  refine ⟨?_, ?_, ?_⟩
  · rw [C4_trainer_hold_timing.1 ⟨"demo", 60, [⟨"A4", 0.25⟩, ⟨"C5", 0.25⟩]⟩
      ⟨true, true, 0, false, 0, 0, 500, false⟩ (by norm_num) (by norm_num) rfl rfl]
    norm_num
  · exact C4_trainer_hold_timing.2.1 ⟨"demo", 60, [⟨"A4", 0.25⟩, ⟨"C5", 0.25⟩]⟩
      ["A4", "B4"] 1 0 ⟨true, true, 0, true, 0, 250, 1000, false⟩ (by norm_num) rfl
      (by simp)
  · exact C4_trainer_hold_timing.2.2 ⟨"demo", 60, [⟨"A4", 0.25⟩, ⟨"C5", 0.25⟩]⟩ 1000
      ⟨true, true, 0, true, 0, 0, 1000, false⟩ rfl (by norm_num) (by norm_num)

/-- The frequency selection performed by the `move` event handler
(`script.js` lines 2091-2113): unless the hand hovers a UI element, compute
`noteIndex = Math.floor(x / (100 / notes.length))`, look the frequency up in
`this.notes`, and bail out (applying nothing) when the lookup is undefined
or falsy.  Returns the frequency applied to the synthesizer, or `none` when
the handler returns without applying one. -/
noncomputable def moveHandlerFrequency (notes : List ℝ) (hovered : Bool) (x : ℝ) : Option ℝ :=
  if hovered then none
  else
    let noteIndex := ⌊x / (100 / (notes.length : ℝ))⌋
    match (if 0 ≤ noteIndex then notes.get? noteIndex.toNat else none) with
    | none => none
    | some f => if f = 0 then none else some f

/-- The mapping as the specification words it: the floor index **clamped**
to `[0, L-1]`, then indexed into the ladder.  Written from the spec for
comparison with `moveHandlerFrequency`. -/
noncomputable def specMoveFrequency (notes : List ℝ) (x : ℝ) : Option ℝ :=
  let raw := ⌊x / (100 / (notes.length : ℝ))⌋
  let clamped := min (max raw 0) ((notes.length : ℤ) - 1)
  notes.get? clamped.toNat

/-- **C5** counterexample.  With the two-note ladder `[100, 200]` and hand
position `x = 100`, the spec's clamped index is 1 and the claimed applied
frequency is `200`, but the code computes index 2, finds
`this.notes[2] === undefined`, and returns without applying any
frequency — no clamping happens. -/
theorem C5_counterexample :
    moveHandlerFrequency [100, 200] false 100 = none ∧
    specMoveFrequency [100, 200] 100 = some 200 := by
  have hdiv : (100 : ℝ) / (100 / ((2 : ℕ) : ℝ)) = 2 := by norm_num
  have hfloor : ⌊(100 : ℝ) / (100 / (([100, 200] : List ℝ).length : ℝ))⌋ = 2 := by
    rw [show (([100, 200] : List ℝ).length : ℝ) = ((2 : ℕ) : ℝ) by norm_num, hdiv]
    rw [show ((2 : ℝ)) = ((2 : ℤ) : ℝ) by norm_num, Int.floor_intCast]
  constructor
  · rw [moveHandlerFrequency, if_neg (by simp)]
    simp only [hfloor]
    rfl
  · rw [specMoveFrequency]
    simp only [hfloor]
    rfl

/-- **C5** (amended).  For hand positions `x ∈ [0, 100)` the computed index
`⌊x / (100 / L)⌋` already lies in `[0, L-1]` (no clamping is performed or
needed) and the frequency applied is exactly the ladder entry at that
index whenever the entry is nonzero; at `x = 100` the index `L` is out of
range and the handler applies nothing (see `C5_counterexample`). -/
theorem C5_move_maps_to_ladder (notes : List ℝ) (x : ℝ)
    (hx0 : 0 ≤ x) (hx1 : x < 100) (hL : 0 < notes.length) :
    0 ≤ ⌊x / (100 / (notes.length : ℝ))⌋ ∧
    (⌊x / (100 / (notes.length : ℝ))⌋).toNat < notes.length ∧
    ∀ f, notes.get? (⌊x / (100 / (notes.length : ℝ))⌋).toNat = some f → f ≠ 0 →
      moveHandlerFrequency notes false x = some f := by
  have hLpos : (0 : ℝ) < (notes.length : ℝ) := by exact_mod_cast hL
  have hq : (0 : ℝ) < 100 / (notes.length : ℝ) := by positivity
  have harg : x / (100 / (notes.length : ℝ)) = x * (notes.length : ℝ) / 100 := by
    field_simp
  have h0 : 0 ≤ ⌊x / (100 / (notes.length : ℝ))⌋ :=
    Int.floor_nonneg.mpr (div_nonneg hx0 hq.le)
  have hlt : ⌊x / (100 / (notes.length : ℝ))⌋ < (notes.length : ℤ) := by
    rw [Int.floor_lt, harg]
    push_cast
    rw [div_lt_iff (by norm_num : (0 : ℝ) < 100)]
    calc x * (notes.length : ℝ) < 100 * (notes.length : ℝ) := by
          exact mul_lt_mul_of_pos_right hx1 hLpos
      _ = (notes.length : ℝ) * 100 := by ring
  refine ⟨h0, ?_, ?_⟩
  · omega
  · intro f hget hf0
    rw [moveHandlerFrequency, if_neg (by simp)]
    simp only [if_pos h0, hget]
    rw [if_neg hf0]

/-- Witness for `C5_move_maps_to_ladder` at the ladder `[100, 200]` and
`x = 0`: index 0 is selected and frequency 100 is applied. -/
theorem C5_move_maps_to_ladder_witness :
    moveHandlerFrequency [100, 200] false 0 = some 100 := by
  refine (C5_move_maps_to_ladder [100, 200] 0 le_rfl (by norm_num) (by norm_num)).2.2
    100 ?_ (by norm_num)
  rw [show ⌊(0 : ℝ) / (100 / (([100, 200] : List ℝ).length : ℝ))⌋ = 0 by
    rw [zero_div]; exact Int.floor_zero]
  rfl

/-- The settings of `HandGestures` relevant to pinch detection
(`handGestures.js` lines 60-76).  Note the constructor computes
`pinchEnabled: options.pinchEnabled || true`, which is always `true`; we
keep the field anyway. -/
structure GestureSettings where
  pinchEnabled : Bool
  pinchThreshold : ℝ
  width : ℝ
  height : ℝ

/-- The thumb-tip / index-tip landmarks of the first detected hand, in
normalized coordinates (`landmarks[4]`, `landmarks[8]`). -/
structure HandLandmarks where
  thumbX : ℝ
  thumbY : ℝ
  indexX : ℝ
  indexY : ℝ

/-- The gesture state mutated by `onResults` that the pinch logic touches. -/
structure GestureState where
  isPinching : Bool
  thumbIndexDistance : ℝ
  handDetected : Bool

/-- `this.thumbIndexDistance` (lines 446-468): landmarks scaled to canvas
pixels, then the Euclidean distance between index tip and thumb tip. -/
noncomputable def pinchDistance (st : GestureSettings) (hand : HandLandmarks) : ℝ :=
  Real.sqrt ((hand.indexX * st.width - hand.thumbX * st.width) ^ 2 +
    (hand.indexY * st.height - hand.thumbY * st.height) ^ 2)

/-- The pinch-relevant portion of one `onResults` invocation
(`handGestures.js` lines 417-495).  Every frame first zeroes
`thumbIndexDistance` and clears `handDetected`; with no hand landmark the
rest of the body is skipped.  With a hand, the distance is computed and the
two edge-detection branches run: below threshold while not pinching emits
`pinch(true)`, at-or-above threshold while pinching emits `pinch(false)`.
Returns the new state and the emitted pinch event, if any. -/
noncomputable def onResultsPinch (st : GestureSettings) (s : GestureState)
    (frame : Option HandLandmarks) : GestureState × Option Bool :=
  match frame with
  | none => ({ s with thumbIndexDistance := 0, handDetected := false }, none)
  | some hand =>
    let d := pinchDistance st hand
    let s1 := { s with thumbIndexDistance := d, handDetected := true }
    if st.pinchEnabled = true ∧ d < st.pinchThreshold ∧ s.isPinching = false then
      ({ s1 with isPinching := true }, some true)
    else if st.pinchEnabled = true ∧ st.pinchThreshold ≤ d ∧ s.isPinching = true then
      ({ s1 with isPinching := false }, some false)
    else
      (s1, none)

/-- The sequence of pinch events emitted while folding `onResultsPinch`
over a list of frames. -/
noncomputable def runPinchEvents (st : GestureSettings) (s : GestureState) :
    List (Option HandLandmarks) → List Bool
  | [] => []
  | f :: fs =>
    match (onResultsPinch st s f).2 with
    | none => runPinchEvents st (onResultsPinch st s f).1 fs
    | some b => b :: runPinchEvents st (onResultsPinch st s f).1 fs

/-- The state after folding `onResultsPinch` over a list of frames. -/
noncomputable def runPinchState (st : GestureSettings) (s : GestureState) :
    List (Option HandLandmarks) → GestureState
  | [] => s
  | f :: fs => runPinchState st (onResultsPinch st s f).1 fs

lemma onResultsPinch_emit_true_iff (st : GestureSettings) (s : GestureState)
    (frame : Option HandLandmarks) :
    (onResultsPinch st s frame).2 = some true ↔
      ∃ hand, frame = some hand ∧ st.pinchEnabled = true ∧
        pinchDistance st hand < st.pinchThreshold ∧ s.isPinching = false := by
  cases frame with
  | none => simp [onResultsPinch]
  | some hand =>
    rw [onResultsPinch]
    dsimp only
    constructor
    · intro hemit
      split at hemit
      · next hcond => exact ⟨hand, rfl, hcond.1, hcond.2.1, hcond.2.2⟩
      · split at hemit
        · simp at hemit
        · simp at hemit
    · rintro ⟨hand', heq, hen, hlt, hnp⟩
      cases heq
      rw [if_pos ⟨hen, hlt, hnp⟩]

lemma onResultsPinch_emit_false_iff (st : GestureSettings) (s : GestureState)
    (frame : Option HandLandmarks) :
    (onResultsPinch st s frame).2 = some false ↔
      ∃ hand, frame = some hand ∧ st.pinchEnabled = true ∧
        st.pinchThreshold ≤ pinchDistance st hand ∧ s.isPinching = true := by
  cases frame with
  | none => simp [onResultsPinch]
  | some hand =>
    rw [onResultsPinch]
    dsimp only
    constructor
    · intro hemit
      split at hemit
      · simp at hemit
      · split at hemit
        · next hcond => exact ⟨hand, rfl, hcond.1, hcond.2.1, hcond.2.2⟩
        · simp at hemit
    · rintro ⟨hand', heq, hen, hge, hp⟩
      cases heq
      rw [if_neg (by rintro ⟨-, hlt, -⟩; exact absurd hge (not_le.mpr hlt)),
        if_pos ⟨hen, hge, hp⟩]

lemma onResultsPinch_state_of_emit (st : GestureSettings) (s : GestureState)
    (frame : Option HandLandmarks) (b : Bool)
    (h : (onResultsPinch st s frame).2 = some b) :
    (onResultsPinch st s frame).1.isPinching = b := by
  cases frame with
  | none => simp [onResultsPinch] at h
  | some hand =>
    rw [onResultsPinch] at h ⊢
    dsimp only at h ⊢
    split at h
    · simp_all
    · split at h
      · simp_all
      · simp at h

lemma onResultsPinch_state_of_none (st : GestureSettings) (s : GestureState)
    (frame : Option HandLandmarks)
    (h : (onResultsPinch st s frame).2 = none) :
    (onResultsPinch st s frame).1.isPinching = s.isPinching := by
  cases frame with
  | none => rw [onResultsPinch]
  | some hand =>
    rw [onResultsPinch] at h ⊢
    dsimp only at h ⊢
    split at h
    · simp at h
    · next hc1 =>
      split at h
      · simp at h
      · next hc2 =>
        rw [if_neg hc1, if_neg hc2]

lemma onResultsPinch_emit_eq_not (st : GestureSettings) (s : GestureState)
    (frame : Option HandLandmarks) (b : Bool)
    (h : (onResultsPinch st s frame).2 = some b) :
    s.isPinching = !b := by
  cases b with
  | true =>
    obtain ⟨-, -, -, -, hnp⟩ := (onResultsPinch_emit_true_iff st s frame).mp h
    simp [hnp]
  | false =>
    obtain ⟨-, -, -, -, hp⟩ := (onResultsPinch_emit_false_iff st s frame).mp h
    simp [hp]

lemma runPinchEvents_alternates (st : GestureSettings) :
    ∀ (fs : List (Option HandLandmarks)) (s : GestureState),
      (runPinchEvents st s fs).Chain' (· ≠ ·) ∧
      (∀ b, (runPinchEvents st s fs).head? = some b → s.isPinching = !b) := by
  intro fs
  induction fs with
  | nil => intro s; simp [runPinchEvents]
  | cons f fs ih =>
    intro s
    rw [runPinchEvents]
    rcases hemit : (onResultsPinch st s f).2 with - | b
    · dsimp only
      obtain ⟨ihChain, ihHead⟩ := ih (onResultsPinch st s f).1
      refine ⟨ihChain, ?_⟩
      intro c hc
      rw [← onResultsPinch_state_of_none st s f hemit]
      exact ihHead c hc
    · dsimp only
      obtain ⟨ihChain, ihHead⟩ := ih (onResultsPinch st s f).1
      refine ⟨List.chain'_cons'.mpr ⟨?_, ihChain⟩, ?_⟩
      · intro c hc
        have hcs : (runPinchEvents st (onResultsPinch st s f).1 fs).head? = some c :=
          Option.mem_def.mp hc
        have h1 := ihHead c hcs
        have h2 := onResultsPinch_state_of_emit st s f b hemit
        rw [h2] at h1
        intro hcontra
        subst hcontra
        simp at h1
      · intro c hc
        rw [List.head?_cons, Option.some.injEq] at hc
        subst hc
        exact onResultsPinch_emit_eq_not st s f b hemit

/-- **C6**.  The pinch classifier emits `pinch(true)` exactly when a frame
with a detected hand has thumb-index distance below the threshold while not
already pinching, emits `pinch(false)` exactly when the distance is at or
above the threshold while pinching, and consequently the emitted events
over any frame sequence strictly alternate. -/
theorem C6_pinch_edge_detection (st : GestureSettings) :
    (∀ (s : GestureState) (frame : Option HandLandmarks),
      (onResultsPinch st s frame).2 = some true ↔
        ∃ hand, frame = some hand ∧ st.pinchEnabled = true ∧
          pinchDistance st hand < st.pinchThreshold ∧ s.isPinching = false) ∧
    (∀ (s : GestureState) (frame : Option HandLandmarks),
      (onResultsPinch st s frame).2 = some false ↔
        ∃ hand, frame = some hand ∧ st.pinchEnabled = true ∧
          st.pinchThreshold ≤ pinchDistance st hand ∧ s.isPinching = true) ∧
    (∀ (s : GestureState) (fs : List (Option HandLandmarks)),
      (runPinchEvents st s fs).Chain' (· ≠ ·)) :=
  ⟨fun s frame => onResultsPinch_emit_true_iff st s frame,
   fun s frame => onResultsPinch_emit_false_iff st s frame,
   fun s fs => (runPinchEvents_alternates st fs s).1⟩

lemma sqrt_three_four : Real.sqrt (((0.03 : ℝ) * 100 - 0 * 100) ^ 2 +
    ((0.04 : ℝ) * 100 - 0 * 100) ^ 2) = 5 := by
  rw [show ((0.03 : ℝ) * 100 - 0 * 100) ^ 2 + ((0.04 : ℝ) * 100 - 0 * 100) ^ 2 =
    5 ^ 2 by norm_num]
  exact Real.sqrt_sq (by norm_num)

/-- Witness for `C6_pinch_edge_detection` with threshold 35 on a 100×100
canvas: a frame with thumb at the origin and index at (0.03, 0.04) has
pinch distance 5 < 35, so from a non-pinching state it emits
`pinch(true)`. -/
theorem C6_pinch_edge_detection_witness :
    (onResultsPinch ⟨true, 35, 100, 100⟩ ⟨false, 0, false⟩
      (some ⟨0, 0, 0.03, 0.04⟩)).2 = some true :=
  ((C6_pinch_edge_detection ⟨true, 35, 100, 100⟩).1 ⟨false, 0, false⟩
    (some ⟨0, 0, 0.03, 0.04⟩)).mpr
    ⟨⟨0, 0, 0.03, 0.04⟩, rfl, rfl, by
      rw [pinchDistance]
      dsimp only
      rw [sqrt_three_four]
      norm_num, rfl⟩

lemma runPinchState_of_none_frames (st : GestureSettings) :
    ∀ (fs : List (Option HandLandmarks)) (s : GestureState),
      (∀ f ∈ fs, f = none) →
      (runPinchState st s fs).isPinching = s.isPinching ∧
      runPinchEvents st s fs = [] := by
  intro fs
  induction fs with
  | nil => intro s _; exact ⟨rfl, rfl⟩
  | cons f fs ih =>
    intro s hall
    have hf : f = none := hall f (by simp)
    subst hf
    have hrest : ∀ f ∈ fs, f = none := fun f hf => hall f (List.mem_cons_of_mem _ hf)
    rw [runPinchState, runPinchEvents]
    have hstep : (onResultsPinch st s none) =
        ({ s with thumbIndexDistance := 0, handDetected := false }, none) := rfl
    rw [hstep]
    dsimp only
    exact ih _ hrest

/-- **C10**.  A frame without hand landmarks emits no pinch event and
leaves `isPinching` unchanged; over any run of hand-free frames no event at
all is emitted and the pinch flag persists, so a pinch that was active when
the hand left the camera stays active until a later frame again detects a
hand (and `pinch(false)` then requires distance at or above the threshold,
per the edge-detection conditions). -/
theorem C10_no_hand_keeps_pinch (st : GestureSettings) :
    (∀ s : GestureState,
      (onResultsPinch st s none).2 = none ∧
      (onResultsPinch st s none).1.isPinching = s.isPinching) ∧
    (∀ (s : GestureState) (fs : List (Option HandLandmarks)),
      (∀ f ∈ fs, f = none) →
      runPinchEvents st s fs = [] ∧
      (runPinchState st s fs).isPinching = s.isPinching) :=
  ⟨fun s => ⟨rfl, rfl⟩,
   fun s fs hall =>
    ⟨(runPinchState_of_none_frames st fs s hall).2,
     (runPinchState_of_none_frames st fs s hall).1⟩⟩

/-- Witness for `C10_no_hand_keeps_pinch`: three hand-free frames starting
from an active pinch emit nothing and leave the pinch active. -/
theorem C10_no_hand_keeps_pinch_witness :
    runPinchEvents ⟨true, 35, 100, 100⟩ ⟨true, 10, true⟩ [none, none, none] = [] ∧
    (runPinchState ⟨true, 35, 100, 100⟩ ⟨true, 10, true⟩
      [none, none, none]).isPinching = true :=
  (C10_no_hand_keeps_pinch ⟨true, 35, 100, 100⟩).2 ⟨true, 10, true⟩
    [none, none, none] (by simp)

/-- The semitone offset table of `noteNameToMIDI` (`script.js`
lines 2228-2230); any character other than A-G fails the regular
expression. -/
def letterBase : Char → Option ℕ
  | 'C' => some 0
  | 'D' => some 2
  | 'E' => some 4
  | 'F' => some 5
  | 'G' => some 7
  | 'A' => some 9
  | 'B' => some 11
  | _ => none

/-- The `(\d+)` group of the note-name regular expression together with
`parseInt`: a nonempty run of decimal digits. -/
def parseDigits (cs : List Char) : Option ℕ :=
  if cs = [] then none
  else if cs.all Char.isDigit then
    some (cs.foldl (fun n c => n * 10 + (c.toNat - 48)) 0)
  else none

/-- The result of matching `^([A-G])([#b]?)(\d+)$`. -/
structure ParsedNote where
  base : ℕ
  accidental : ℤ
  octave : ℕ
  deriving DecidableEq

/-- Matching the note-name pattern `^([A-G])([#b]?)(\d+)$` of
`noteNameToMIDI` (`script.js` line 2216). -/
def parseNoteName (s : String) : Option ParsedNote :=
  match s.data with
  | [] => none
  | c :: rest =>
    match letterBase c with
    | none => none
    | some b =>
      match rest with
      | '#' :: ds => (parseDigits ds).map fun o => ⟨b, 1, o⟩
      | 'b' :: ds => (parseDigits ds).map fun o => ⟨b, -1, o⟩
      | ds => (parseDigits ds).map fun o => ⟨b, 0, o⟩

/-- `noteNameToMIDI` (`script.js` lines 2215-2245): parse the name, demand
octave in [0, 10], compute `base + (octave + 1) * 12 ± accidental`, and
reject results outside [0, 127].  `null` is `none`. -/
def noteNameToMIDI (s : String) : Option ℕ :=
  match parseNoteName s with
  | none => none
  | some p =>
    if p.octave > 10 then none
    else
      let midi : ℤ := (p.base : ℤ) + ((p.octave : ℤ) + 1) * 12 + p.accidental
      if midi < 0 ∨ midi > 127 then none else some midi.toNat

/-- The sharp-spelling note-name table `noteNames` of `midiToNoteName`
(`script.js` line 2259). -/
def midiNoteNames : List String :=
  ["C", "C#", "D", "D#", "E", "F"] ++ ["F#", "G", "G#", "A", "A#", "B"]

/-- `midiToNoteName` (`script.js` lines 2252-2262): reject MIDI numbers
outside [0, 127], compute `octave = Math.floor(midiNumber / 12) - 1` (for
the nonnegative admitted inputs integer division is the floor) and
`noteInOctave = midiNumber % 12`, and build the template string
`noteNames[noteInOctave] + octave` — whose octave part is the decimal
rendering of a negative number for MIDI 0-11. -/
def midiToNoteName (midiNumber : ℤ) : Option String :=
  if midiNumber < 0 ∨ midiNumber > 127 then none
  else
    (midiNoteNames.get? (midiNumber % 12).toNat).map
      (fun pitchName => pitchName ++ toString (midiNumber / 12 - 1))

/-- The equal-temperament frequency for a MIDI number, rounded to two
decimals exactly as `noteNameToFrequency` does with
`Math.round(frequency * 100) / 100` (`script.js` lines 2200-2203);
`Math.round x = ⌊x + 1/2⌋`. -/
noncomputable def freqOfMidi (m : ℕ) : ℝ :=
  ((⌊440 * (2 : ℝ) ^ (((m : ℝ) - 69) / 12) * 100 + 1 / 2⌋ : ℤ) : ℝ) / 100

/-- `noteNameToFrequency` (lines 2195-2208): `null` when the name does not
resolve, otherwise the rounded equal-temperament frequency. -/
noncomputable def noteNameToFrequency (s : String) : Option ℝ :=
  (noteNameToMIDI s).map freqOfMidi

lemma noteNameToMIDI_le (s : String) (m : ℕ) (h : noteNameToMIDI s = some m) :
    m ≤ 127 := by
  rw [noteNameToMIDI] at h
  rcases hp : parseNoteName s with - | p
  · rw [hp] at h
    simp at h
  · rw [hp] at h
    dsimp only at h
    split at h
    · simp at h
    · split at h
      · simp at h
      · next hcond =>
        rw [Option.some.injEq] at h
        push_neg at hcond
        omega

set_option maxRecDepth 10000 in
lemma midi_roundtrip : ∀ m : ℕ, m < 128 → 12 ≤ m →
    ((midiToNoteName (m : ℤ)).bind noteNameToMIDI) = some m := by decide

/-- **C7** counterexample.  `"Cb0"` is a valid note name (MIDI 11), but
`midiToNoteName 11` renders octave `-1` as `"B-1"`, which the note-name
pattern cannot parse: the round trip yields an invalid name with no
frequency, while `"Cb0"` itself has one. -/
theorem C7_counterexample :
    noteNameToMIDI "Cb0" = some 11 ∧
    midiToNoteName 11 = some "B-1" ∧
    noteNameToMIDI "B-1" = none ∧
    (noteNameToFrequency "Cb0").isSome = true ∧
    noteNameToFrequency "B-1" = none := by
  refine ⟨by decide, by decide, by decide, ?_, ?_⟩
  · rw [noteNameToFrequency, show noteNameToMIDI "Cb0" = some 11 from by decide]
    rfl
  · rw [noteNameToFrequency, show noteNameToMIDI "B-1" = none from by decide]
    rfl

/-- **C7** (amended).  For every valid note name `N` whose MIDI number is
at least 12 (all names except the flat-spelled `Cb0`, whose MIDI is 11),
`midiToNoteName (noteNameToMIDI N)` is again a valid note name and its
frequency equals that of `N`: the round trip preserves pitch even when the
sharp/flat spelling differs. -/
theorem C7_roundtrip_preserves_pitch (s : String) (m : ℕ)
    (hvalid : noteNameToMIDI s = some m) (h12 : 12 ≤ m) :
    ∃ t, midiToNoteName (m : ℤ) = some t ∧
      noteNameToMIDI t = some m ∧
      noteNameToFrequency t = noteNameToFrequency s := by
  have hle : m ≤ 127 := noteNameToMIDI_le s m hvalid
  have h := midi_roundtrip m (by omega) h12
  obtain ⟨t, ht, hmid⟩ := Option.bind_eq_some.mp h
  refine ⟨t, ht, hmid, ?_⟩
  rw [noteNameToFrequency, noteNameToFrequency, hvalid, hmid]

/-- Witness for `C7_roundtrip_preserves_pitch` at `N = "A4"` (MIDI 69): the
round trip gives a valid name of the same frequency. -/
theorem C7_roundtrip_preserves_pitch_witness :
    ∃ t, midiToNoteName (((69 : ℕ)) : ℤ) = some t ∧
      noteNameToMIDI t = some 69 ∧
      noteNameToFrequency t = noteNameToFrequency "A4" :=
  C7_roundtrip_preserves_pitch "A4" 69 (by decide) (by norm_num)

/-- The nodes stored per harmonic by `createHarmonicOscillators`
(`script.js` lines 1192-1239): oscillator, gain, and a delay node when the
harmonic's phase is nonzero.  Nodes are identified by allocation number. -/
structure HarmonicNodes where
  oscillator : ℕ
  gainNode : ℕ
  delayNode : Option ℕ

/-- The parameters of a `startAudio` call that decide the node topology:
the phases of the harmonics and the AM/FM enable flags. -/
structure StartConfig where
  harmonicPhases : List ℝ
  amEnabled : Bool
  fmEnabled : Bool

/-- The audio-graph state held by the synthesizer object: a fresh-id
counter and the set of started-and-not-stopped oscillators and of master
gain nodes connected to the destination model the underlying audio
subsystem; the `Option` fields are the nullable node references of the
class. -/
structure AudioGraphState where
  nextId : ℕ
  runningOscs : List ℕ
  connectedMasterGains : List ℕ
  mainOscillator : Option ℕ
  amOscillator : Option ℕ
  fmOscillator : Option ℕ
  gainNode : Option ℕ
  amGainNode : Option ℕ
  masterGainNode : Option ℕ
  harmonicOscillators : List HarmonicNodes
  isPlaying : Bool

/-- Allocation performed by the `createHarmonicOscillators` loop: per
harmonic an oscillator and a gain, plus a delay node iff the phase is
nonzero (`if (harmonic.phase === 0)`), ids handed out in order. -/
noncomputable def createHarmonicNodes (phases : List ℝ) (firstId : ℕ) :
    List HarmonicNodes × ℕ :=
  phases.foldl
    (fun acc ph =>
      if ph = 0 then
        (acc.1 ++ [⟨acc.2, acc.2 + 1, none⟩], acc.2 + 2)
      else
        (acc.1 ++ [⟨acc.2, acc.2 + 1, some (acc.2 + 2)⟩], acc.2 + 3))
    ([], firstId)

/-- `startAudio` (`script.js` lines 1063-1106): allocate the master gain
and connect it to the destination, build the main oscillator + gain, the
harmonic nodes, the AM oscillator + gain and FM oscillator + local gain
when enabled, then start every oscillator.  Nothing guards against being
called while already playing: the old references are overwritten and the
old nodes stay running and connected. -/
noncomputable def startAudio (cfg : StartConfig) (s : AudioGraphState) : AudioGraphState :=
  let masterId := s.nextId
  let mainId := s.nextId + 1
  let mainGainId := s.nextId + 2
  let harm := createHarmonicNodes cfg.harmonicPhases (s.nextId + 3)
  let afterHarm := harm.2
  let amOsc := if cfg.amEnabled then some afterHarm else none
  let amGain := if cfg.amEnabled then some (afterHarm + 1) else none
  let afterAM := if cfg.amEnabled then afterHarm + 2 else afterHarm
  let fmOsc := if cfg.fmEnabled then some afterAM else none
  let afterFM := if cfg.fmEnabled then afterAM + 2 else afterAM
  { nextId := afterFM
    runningOscs := s.runningOscs ++ [mainId] ++ harm.1.map (·.oscillator) ++
      (if cfg.amEnabled then [afterHarm] else []) ++
      (if cfg.fmEnabled then [afterAM] else [])
    connectedMasterGains := s.connectedMasterGains ++ [masterId]
    mainOscillator := some mainId
    amOscillator := amOsc
    fmOscillator := fmOsc
    gainNode := some mainGainId
    amGainNode := amGain
    masterGainNode := some masterId
    harmonicOscillators := harm.1
    isPlaying := true }

/-- `ref.stop(); ref.disconnect()` on an oscillator reference: a null
dereference is a thrown `TypeError`, a live reference removes the
oscillator from the running set. -/
def stopOscRef (s : AudioGraphState) (ref : Option ℕ) : Except String AudioGraphState :=
  match ref with
  | none => .error "TypeError"
  | some id => .ok { s with runningOscs := s.runningOscs.erase id }

/-- `masterGainNode.disconnect()` on a gain reference. -/
def disconnectMasterRef (s : AudioGraphState) (ref : Option ℕ) : Except String AudioGraphState :=
  match ref with
  | none => .error "TypeError"
  | some id => .ok { s with connectedMasterGains := s.connectedMasterGains.erase id }

/-- `stopAudio` (`script.js` lines 1111-1169): clear `isPlaying`; stop and
null the main oscillator if present; stop every harmonic oscillator and
empty the list; stop and null the AM and FM oscillators if present; null
the gain references; disconnect and null the master gain if present.
Every node operation sits behind the code's null guard, so a thrown
`TypeError` would surface as an `error` value. -/
def stopAudio (s : AudioGraphState) : Except String AudioGraphState := do
  let s0 := { s with isPlaying := false }
  let s1 ← if s0.mainOscillator.isSome then do
      let t ← stopOscRef s0 s0.mainOscillator
      pure { t with mainOscillator := none }
    else pure s0
  let s2 := { s1 with
    runningOscs := s1.harmonicOscillators.foldl
      (fun l h => l.erase h.oscillator) s1.runningOscs
    harmonicOscillators := [] }
  let s3 ← if s2.amOscillator.isSome then do
      let t ← stopOscRef s2 s2.amOscillator
      pure { t with amOscillator := none }
    else pure s2
  let s4 ← if s3.fmOscillator.isSome then do
      let t ← stopOscRef s3 s3.fmOscillator
      pure { t with fmOscillator := none }
    else pure s3
  let s5 := { s4 with gainNode := none, amGainNode := none }
  let s6 ← if s5.masterGainNode.isSome then do
      let t ← disconnectMasterRef s5 s5.masterGainNode
      pure { t with masterGainNode := none }
    else pure s5
  pure s6

lemma stopAudio_spec (s : AudioGraphState) :
    ∃ t, stopAudio s = .ok t ∧
      t.mainOscillator = none ∧ t.amOscillator = none ∧ t.fmOscillator = none ∧
      t.gainNode = none ∧ t.amGainNode = none ∧ t.masterGainNode = none ∧
      t.harmonicOscillators = [] ∧ t.isPlaying = false ∧
      t.connectedMasterGains =
        (match s.masterGainNode with
         | some id => s.connectedMasterGains.erase id
         | none => s.connectedMasterGains) := by
  rcases s with ⟨nid, ro, cmg, mo, ao, fo, gn, agn, mgn, ho, ip⟩
  rcases mo with - | a <;> rcases ao with - | b <;> rcases fo with - | c <;>
    rcases mgn with - | d <;>
    exact ⟨_, rfl, rfl, rfl, rfl, rfl, rfl, rfl, rfl, rfl, rfl⟩

lemma stopAudio_idem (t : AudioGraphState)
    (h1 : t.mainOscillator = none) (h2 : t.amOscillator = none)
    (h3 : t.fmOscillator = none) (h4 : t.gainNode = none)
    (h5 : t.amGainNode = none) (h6 : t.masterGainNode = none)
    (h7 : t.harmonicOscillators = []) (h8 : t.isPlaying = false) :
    stopAudio t = .ok t := by
  rcases t with ⟨nid, ro, cmg, mo, ao, fo, gn, agn, mgn, ho, ip⟩
  dsimp only at h1 h2 h3 h4 h5 h6 h7 h8
  subst h1 h2 h3 h4 h5 h6 h7 h8
  rfl

/-- The calls whose interleavings the claim quantifies over. -/
inductive AudioOp
  | start (cfg : StartConfig)
  | stop

/-- Apply one call; a `stopAudio` error would leave the state as the model
cannot represent a thrown exception (it is proved never to occur). -/
noncomputable def applyAudioOp (s : AudioGraphState) : AudioOp → AudioGraphState
  | .start cfg => startAudio cfg s
  | .stop =>
    match stopAudio s with
    | .ok t => t
    | .error _ => s

/-- Run a sequence of calls. -/
noncomputable def runAudioOps (s : AudioGraphState) : List AudioOp → AudioGraphState
  | [] => s
  | op :: ops => runAudioOps (applyAudioOp s op) ops

/-- The discipline `togglePlayback` enforces: `startAudio` is only invoked
while not playing. -/
def Disciplined : AudioGraphState → List AudioOp → Prop
  | _, [] => True
  | s, op :: ops =>
    (∀ cfg, op = AudioOp.start cfg → s.isPlaying = false) ∧
    Disciplined (applyAudioOp s op) ops

lemma disciplined_nil (s : AudioGraphState) : Disciplined s [] := trivial

lemma disciplined_cons (s : AudioGraphState) (op : AudioOp) (ops : List AudioOp)
    (h1 : ∀ cfg, op = AudioOp.start cfg → s.isPlaying = false)
    (h2 : Disciplined (applyAudioOp s op) ops) : Disciplined s (op :: ops) :=
  ⟨h1, h2⟩

/-- The coupling between the reference fields and the live graph count that
start/stop maintain when starts only happen while stopped. -/
def AudioInv (s : AudioGraphState) : Prop :=
  (s.isPlaying = false → s.masterGainNode = none ∧ s.connectedMasterGains = []) ∧
  (s.isPlaying = true → ∃ id, s.masterGainNode = some id ∧ s.connectedMasterGains = [id])

lemma audioInv_start (cfg : StartConfig) (s : AudioGraphState)
    (hs : AudioInv s) (hp : s.isPlaying = false) : AudioInv (startAudio cfg s) := by
  obtain ⟨hm, hc⟩ := hs.1 hp
  constructor
  · intro hfalse
    rw [show (startAudio cfg s).isPlaying = true from rfl] at hfalse
    cases hfalse
  · intro _
    refine ⟨s.nextId, rfl, ?_⟩
    rw [show (startAudio cfg s).connectedMasterGains =
      s.connectedMasterGains ++ [s.nextId] from rfl, hc]
    rfl

lemma audioInv_stop (s t : AudioGraphState) (hs : AudioInv s)
    (h : stopAudio s = .ok t) : AudioInv t := by
  obtain ⟨t', ht', c1, c2, c3, c4, c5, c6, c7, c8, c9⟩ := stopAudio_spec s
  rw [ht', Except.ok.injEq] at h
  subst h
  refine ⟨fun _ => ⟨c6, ?_⟩, fun htrue => absurd htrue (by rw [c8]; simp)⟩
  rw [c9]
  rcases hplay : s.isPlaying with - | -
  · obtain ⟨hm, hc⟩ := hs.1 hplay
    rw [hm, hc]
  · obtain ⟨id, hm, hc⟩ := hs.2 hplay
    rw [hm, hc]
    simp [List.erase_cons_head]

lemma audioInv_run : ∀ (ops : List AudioOp) (s : AudioGraphState),
    AudioInv s → Disciplined s ops → AudioInv (runAudioOps s ops) := by
  intro ops
  induction ops with
  | nil => intro s hs _; exact hs
  | cons op ops ih =>
    intro s hs hd
    rw [runAudioOps]
    refine ih _ ?_ hd.2
    cases op with
    | start cfg => exact audioInv_start cfg s hs (hd.1 cfg rfl)
    | stop =>
      obtain ⟨t, ht, -⟩ := stopAudio_spec s
      have : applyAudioOp s .stop = t := by rw [applyAudioOp, ht]
      rw [this]
      exact audioInv_stop s t hs ht

/-- **C9** (amended).  (1) `stopAudio` always succeeds (in particular a
second consecutive call does not throw — it returns the same state), and
afterwards every node reference is cleared: `mainOscillator`,
`amOscillator`, `fmOscillator`, `gainNode`, `amGainNode` and
`masterGainNode` are null and `harmonicOscillators` is empty.
(2) For any interleaving of `startAudio`/`stopAudio` calls in which
`startAudio` is only invoked while stopped (the discipline `togglePlayback`
enforces), at most one live audio graph exists at any time. -/
theorem C9_teardown_and_single_graph :
    (∀ s : AudioGraphState, ∃ t, stopAudio s = .ok t ∧
      t.mainOscillator = none ∧ t.amOscillator = none ∧ t.fmOscillator = none ∧
      t.gainNode = none ∧ t.amGainNode = none ∧ t.masterGainNode = none ∧
      t.harmonicOscillators = [] ∧ t.isPlaying = false ∧
      stopAudio t = .ok t) ∧
    (∀ (ops : List AudioOp) (s : AudioGraphState),
      AudioInv s → Disciplined s ops →
      (runAudioOps s ops).connectedMasterGains.length ≤ 1) := by
  constructor
  · intro s
    obtain ⟨t, ht, c1, c2, c3, c4, c5, c6, c7, c8, -⟩ := stopAudio_spec s
    exact ⟨t, ht, c1, c2, c3, c4, c5, c6, c7, c8,
      stopAudio_idem t c1 c2 c3 c4 c5 c6 c7 c8⟩
  · intro ops s hs hd
    have hinv := audioInv_run ops s hs hd
    rcases hplay : (runAudioOps s ops).isPlaying with - | -
    · rw [(hinv.1 hplay).2]
      simp
    · obtain ⟨id, -, hc⟩ := hinv.2 hplay
      rw [hc]
      simp

/-- **C9** counterexample.  Calling `startAudio` twice in a row (an
interleaving the claim quantifies over) leaves two master gains connected
to the destination — two overlapping live graphs — and the first graph's
main oscillator (id 1) still running with its reference lost. -/
theorem C9_counterexample :
    ((startAudio ⟨[], false, false⟩ (startAudio ⟨[], false, false⟩
      ⟨0, [], [], none, none, none, none, none, none, [], false⟩)).connectedMasterGains
        = [0, 3]) ∧
    ((startAudio ⟨[], false, false⟩ (startAudio ⟨[], false, false⟩
      ⟨0, [], [], none, none, none, none, none, none, [], false⟩)).runningOscs
        = [1, 4]) := by
  exact ⟨rfl, rfl⟩

/-- Witness for `C9_teardown_and_single_graph`: a concrete playing state is
torn down with all references cleared, and the disciplined call sequence
start · stop · start from the idle state keeps the live-graph count at
one. -/
theorem C9_teardown_and_single_graph_witness :
    (∃ t, stopAudio ⟨5, [1], [0], some 1, none, none, some 2, none, some 0, [], true⟩
        = .ok t ∧
      t.mainOscillator = none ∧ t.amOscillator = none ∧ t.fmOscillator = none ∧
      t.gainNode = none ∧ t.amGainNode = none ∧ t.masterGainNode = none ∧
      t.harmonicOscillators = [] ∧ t.isPlaying = false ∧
      stopAudio t = .ok t) ∧
    (runAudioOps ⟨0, [], [], none, none, none, none, none, none, [], false⟩
      [AudioOp.start ⟨[], false, false⟩, AudioOp.stop,
        AudioOp.start ⟨[], false, false⟩]).connectedMasterGains.length ≤ 1 := by
  constructor
  · exact C9_teardown_and_single_graph.1 _
  · refine C9_teardown_and_single_graph.2 _ _
      ⟨fun _ => ⟨rfl, rfl⟩, fun h => by cases h⟩ ?_
    exact disciplined_cons _ _ _ (fun cfg _ => rfl)
      (disciplined_cons _ _ _ (fun cfg h => by cases h)
        (disciplined_cons _ _ _ (fun cfg _ => rfl) (disciplined_nil _)))

/-- Parsed JSON values, as produced by `JSON.parse`. -/
inductive Json where
  | null
  | bool (b : Bool)
  | num (x : ℝ)
  | str (s : String)
  | arr (elems : List Json)
  | obj (fields : List (String × Json))

/-- Property access `j.k`: defined on objects, `undefined` (`none`)
elsewhere. -/
def Json.getField : Json → String → Option Json
  | .obj fields, k => fields.lookup k
  | _, _ => none

/-- Property assignment `j.k = v` on an object. -/
def setFieldList : List (String × Json) → String → Json → List (String × Json)
  | [], k, v => [(k, v)]
  | (k', v') :: rest, k, v =>
    if k' = k then (k, v) :: rest else (k', v') :: setFieldList rest k v

/-- Property assignment on a JSON value (no-op on non-objects). -/
def Json.setField : Json → String → Json → Json
  | .obj fields, k, v => .obj (setFieldList fields k v)
  | j, _, _ => j

/-- JavaScript truthiness of a possibly-undefined value, as tested by
`!melodyData.tempo`: `undefined`, `null`, `false`, `0` and `""` are
falsy. -/
def jsTruthy : Option Json → Prop
  | none => False
  | some .null => False
  | some (.bool b) => b = true
  | some (.num x) => x ≠ 0
  | some (.str s) => s ≠ ""
  | some (.arr _) => True
  | some (.obj _) => True

/-- `Array.isArray(melodyData.notes)` together with the element access:
the note list when the `notes` field is an array, `none` otherwise. -/
def Json.getNotesArr (j : Json) : Option (List Json) :=
  match j.getField "notes" with
  | some (.arr xs) => some xs
  | _ => none

/-- The validation/collection loop of `loadMelodyFromJSON` (`script.js`
lines 1979-1995): every entry must be a 2-element `[string, number]` array
(first offending entry throws), and the names of non-rest entries are
collected in order (with duplicates, deduplicated afterwards as the
JavaScript `Set` does). -/
def extractMelodyNames : List Json → Except String (List String)
  | [] => .ok []
  | note :: rest =>
    match note with
    | .arr [.str noteName, .num _] =>
      (extractMelodyNames rest).map fun ns =>
        if noteName.trim ≠ "" ∧ noteName ≠ " " then noteName :: ns else ns
    | .arr [_, _] => .error "Invalid note. Format: [NoteName, durationNumber]."
    | _ => .error "Invalid note. Each note must be [noteName, duration]."

/-- The `Set`-insertion order of the JavaScript collection loop: keep the
first occurrence of each name. -/
def dedupFirst (names : List String) : List String :=
  names.foldl (fun acc n => if n ∈ acc then acc else acc ++ [n]) []

/-- One entry of the `noteFrequencyPairs` array of
`calculateNotesAndFrequencies` (`script.js` lines 2127-2188). -/
structure NotePair where
  name : String
  frequency : ℝ
  midi : ℕ

/-- The first loop of `calculateNotesAndFrequencies`: resolve each name,
skipping the ones with a null frequency or MIDI number. -/
noncomputable def buildNotePairs (noteNames : List String) : List NotePair :=
  noteNames.filterMap fun n =>
    match noteNameToMIDI n with
    | some m => some ⟨n, freqOfMidi m, m⟩
    | none => none

/-- A candidate padding pair at the given MIDI number: present only when
`midiToNoteName` yields a name that itself resolves to a frequency
(`script.js` lines 2146-2174). -/
noncomputable def padCandidate (midiVal : ℤ) : Option NotePair :=
  match midiToNoteName midiVal with
  | none => none
  | some nm =>
    match noteNameToFrequency nm with
    | some fr => some ⟨nm, fr, midiVal.toNat⟩
    | none => none

/-- The padding step of `calculateNotesAndFrequencies`: when any pair
resolved, append one semitone below the lowest MIDI (if still ≥ 0) and one
above the highest (if still ≤ 127), each only when its name resolves. -/
noncomputable def addPaddingNotes (pairs : List NotePair) : List NotePair :=
  match (pairs.map (·.midi) : List ℕ) with
  | [] => pairs
  | m0 :: ms =>
    let lowest : ℕ := ms.foldl min m0
    let highest : ℕ := ms.foldl max m0
    let withLower :=
      if 1 ≤ lowest then
        match padCandidate ((lowest : ℤ) - 1) with
        | some p => pairs ++ [p]
        | none => pairs
      else pairs
    if highest + 1 ≤ 127 then
      match padCandidate ((highest : ℤ) + 1) with
      | some p => withLower ++ [p]
      | none => withLower
    else withLower

open Classical in
/-- The final sort of `calculateNotesAndFrequencies`:
`sort((a, b) => a.frequency - b.frequency)`, ascending and stable. -/
noncomputable def sortByFrequency (pairs : List NotePair) : List NotePair :=
  pairs.mergeSort fun a b => a.frequency ≤ b.frequency

/-- `calculateNotesAndFrequencies` (`script.js` lines 2127-2188): resolve,
pad, sort by frequency, and extract the name and frequency arrays. -/
noncomputable def calculateNotesAndFrequencies (noteNames : List String) :
    List String × List ℝ :=
  let sorted := sortByFrequency (addPaddingNotes (buildNotePairs noteNames))
  (sorted.map (·.name), sorted.map (·.frequency))

/-- The state `loadMelodyFromJSON` mutates: the note ladder
(`this.notes` / `this.noteNames`) and the current melody guide. -/
structure MelodyState where
  notes : List ℝ
  noteNames : List String
  melodyGuide : Json

open Classical in
/-- The default-name step of `loadMelodyFromJSON` (`script.js`
lines 2015-2017): `if (!this.melodyGuide.name || this.melodyGuide.name.trim() === '')`
replaces the name by `"Custom Melody"`.  A falsy `name` short-circuits the
`||` and takes the default without calling `.trim()`; a truthy string is
trimmed and compared against the empty string; a truthy **non-string** has
no `.trim` method, so the code throws a `TypeError` at this point — which
happens after `this.notes`, `this.noteNames` and `this.melodyGuide` were
already replaced (lines 2008-2012). -/
noncomputable def defaultNameStep (j : Json) : Except String Json :=
  if ¬ jsTruthy (j.getField "name") then
    .ok (j.setField "name" (.str "Custom Melody"))
  else
    match j.getField "name" with
    | some (.str s) =>
      if s.trim = "" then .ok (j.setField "name" (.str "Custom Melody")) else .ok j
    | _ => .error "TypeError: this.melodyGuide.name.trim is not a function"

open Classical in
/-- `loadMelodyFromJSON` (`script.js` lines 1969-2042) on an
already-parsed JSON value.  Returns the final state and `none` on success,
or the final state and the thrown error message.  All validation throws
happen before any mutation, so those paths return the input state; the
name-defaulting `TypeError` (see `defaultNameStep`) is thrown after
`this.notes`, `this.noteNames` and `this.melodyGuide` were assigned, so
that path reports an error with the already-mutated state, `melodyGuide`
holding the raw object.  The joint guard
`!melodyData.tempo || !Array.isArray(melodyData.notes)` is split into two
checks with the same error, the notes-array check first. -/
noncomputable def loadMelodyFromJSON (st : MelodyState) (melodyData : Json) :
    MelodyState × Option String :=
  match melodyData.getNotesArr with
  | none => (st, some "Invalid melody format. Must have tempo and notes array.")
  | some notesList =>
    if jsTruthy (melodyData.getField "tempo") then
      match extractMelodyNames notesList with
      | .error e => (st, some e)
      | .ok rawNames =>
        let melodyNoteNames := dedupFirst rawNames
        let calculated := calculateNotesAndFrequencies melodyNoteNames
        if ∀ n ∈ melodyNoteNames, n ∈ calculated.1 then
          match defaultNameStep melodyData with
          | .ok guide =>
            ({ notes := calculated.2, noteNames := calculated.1,
               melodyGuide := guide }, none)
          | .error e =>
            ({ notes := calculated.2, noteNames := calculated.1,
               melodyGuide := melodyData }, some e)
        else
          (st, some "Unable to calculate frequency for note.")
    else
      (st, some "Invalid melody format. Must have tempo and notes array.")

lemma mem_foldl_insertUnique (names : List String) :
    ∀ (acc : List String) (n : String), n ∈ acc ∨ n ∈ names →
      n ∈ names.foldl (fun acc n => if n ∈ acc then acc else acc ++ [n]) acc := by
  induction names with
  | nil =>
    intro acc n h
    rcases h with h | h
    · exact h
    · cases h
  | cons m names ih =>
    intro acc n h
    rw [List.foldl_cons]
    apply ih
    rcases h with h | h
    · left
      by_cases hm : m ∈ acc
      · rw [if_pos hm]; exact h
      · rw [if_neg hm]; exact List.mem_append_left _ h
    · rcases List.mem_cons.mp h with rfl | h
      · left
        by_cases hm : n ∈ acc
        · rw [if_pos hm]; exact hm
        · rw [if_neg hm]; exact List.mem_append_right _ (by simp)
      · right; exact h

lemma mem_dedupFirst {names : List String} {n : String} (h : n ∈ names) :
    n ∈ dedupFirst names :=
  mem_foldl_insertUnique names [] n (Or.inr h)

lemma buildNotePairs_resolvable {names : List String} {p : NotePair}
    (h : p ∈ buildNotePairs names) : noteNameToMIDI p.name = some p.midi := by
  rcases p with ⟨pn, pf, pm⟩
  rw [buildNotePairs, List.mem_filterMap] at h
  obtain ⟨n, -, hn⟩ := h
  rcases hm : noteNameToMIDI n with - | m <;> rw [hm] at hn
  · simp at hn
  · simp only [Option.some.injEq, NotePair.mk.injEq] at hn
    obtain ⟨rfl, -, rfl⟩ := hn
    exact hm

lemma padCandidate_resolvable {v : ℤ} {p : NotePair} (h : padCandidate v = some p) :
    (noteNameToMIDI p.name).isSome = true := by
  rw [padCandidate] at h
  rcases hm : midiToNoteName v with - | nm <;> rw [hm] at h
  · simp at h
  · dsimp only at h
    rcases hf : noteNameToFrequency nm with - | fr <;> rw [hf] at h
    · simp at h
    · dsimp only at h
      rw [Option.some.injEq] at h
      subst h
      rw [noteNameToFrequency] at hf
      obtain ⟨m, hm2, -⟩ := Option.map_eq_some'.mp hf
      simp [hm2]

lemma addPaddingNotes_mem {pairs : List NotePair} {p : NotePair}
    (h : p ∈ addPaddingNotes pairs) :
    p ∈ pairs ∨ ∃ v, padCandidate v = some p := by
  rw [addPaddingNotes] at h
  rcases hmap : pairs.map (·.midi) with - | ⟨m0, ms⟩ <;> rw [hmap] at h
  · exact Or.inl h
  · dsimp only at h
    generalize (ms.foldl min m0) = lo at h
    generalize (ms.foldl max m0) = hi at h
    have hlower : ∀ q ∈ (if 1 ≤ lo then
        match padCandidate ((lo : ℤ) - 1) with
        | some pp => pairs ++ [pp]
        | none => pairs
      else pairs), q ∈ pairs ∨ ∃ v, padCandidate v = some q := by
      intro q hq
      split at hq
      · rcases hp2 : padCandidate ((lo : ℤ) - 1) with - | r <;> rw [hp2] at hq
        · exact Or.inl hq
        · rcases List.mem_append.mp hq with hq | hq
          · exact Or.inl hq
          · rw [List.mem_singleton] at hq
            subst hq
            exact Or.inr ⟨_, hp2⟩
      · exact Or.inl hq
    split at h
    · rcases hp2 : padCandidate ((hi : ℤ) + 1) with - | r <;> rw [hp2] at h
      · exact hlower p h
      · rcases List.mem_append.mp h with h | h
        · exact hlower p h
        · rw [List.mem_singleton] at h
          subst h
          exact Or.inr ⟨_, hp2⟩
    · exact hlower p h

lemma calculated_names_resolvable {names : List String} {n : String}
    (h : n ∈ (calculateNotesAndFrequencies names).1) :
    (noteNameToMIDI n).isSome = true := by
  rw [calculateNotesAndFrequencies] at h
  dsimp only at h
  rw [List.mem_map] at h
  obtain ⟨p, hp, rfl⟩ := h
  rw [sortByFrequency] at hp
  have hp' : p ∈ addPaddingNotes (buildNotePairs names) :=
    (List.mergeSort_perm _ _).mem_iff.mp hp
  rcases addPaddingNotes_mem hp' with hmem | ⟨v, hv⟩
  · rw [buildNotePairs_resolvable hmem]; rfl
  · exact padCandidate_resolvable hv

/-- **C8** (amended).  `loadMelodyFromJSON` rejects and leaves the melody
guide, notes array and noteNames array unchanged whenever the parsed JSON
has a falsy `tempo` field (the code checks only truthiness, not
numericity), whenever `notes` is not an array of 2-element
`[string, number]` pairs, and whenever some non-rest note name fails to
resolve — each of these throws before any mutation.  The note ladder is
replaced only when every non-rest note resolves (no partial ladder): on any
well-formed input the result either equals the input state or carries the
complete calculated ladder with every non-rest name resolving.  One error
path mutates first (faithful to the code): when validation passes but the
melody's `name` field is truthy and not a string, the name-defaulting step
throws a `TypeError` after the ladder and melody guide were already
replaced, and the error is reported with the mutated state. -/
theorem C8_no_partial_load (st : MelodyState) (melodyData : Json) :
    (¬ jsTruthy (melodyData.getField "tempo") →
      (loadMelodyFromJSON st melodyData).1 = st ∧
      ((loadMelodyFromJSON st melodyData).2).isSome = true) ∧
    (melodyData.getNotesArr = none →
      (loadMelodyFromJSON st melodyData).1 = st ∧
      ((loadMelodyFromJSON st melodyData).2).isSome = true) ∧
    (∀ (notesList : List Json) (e : String),
      melodyData.getNotesArr = some notesList →
      extractMelodyNames notesList = .error e →
      (loadMelodyFromJSON st melodyData).1 = st ∧
      ((loadMelodyFromJSON st melodyData).2).isSome = true) ∧
    (∀ (notesList : List Json) (rawNames : List String) (n : String),
      melodyData.getNotesArr = some notesList →
      extractMelodyNames notesList = .ok rawNames →
      n ∈ rawNames → noteNameToMIDI n = none →
      (loadMelodyFromJSON st melodyData).1 = st ∧
      ((loadMelodyFromJSON st melodyData).2).isSome = true) ∧
    ((loadMelodyFromJSON st melodyData).2 = none →
      ∀ (notesList : List Json) (rawNames : List String),
        melodyData.getNotesArr = some notesList →
        extractMelodyNames notesList = .ok rawNames →
        (loadMelodyFromJSON st melodyData).1.notes =
          (calculateNotesAndFrequencies (dedupFirst rawNames)).2 ∧
        (loadMelodyFromJSON st melodyData).1.noteNames =
          (calculateNotesAndFrequencies (dedupFirst rawNames)).1 ∧
        (∃ guide, defaultNameStep melodyData = .ok guide ∧
          (loadMelodyFromJSON st melodyData).1.melodyGuide = guide) ∧
        ∀ n ∈ rawNames, (noteNameToMIDI n).isSome = true) ∧
    (∀ (notesList : List Json) (rawNames : List String),
      melodyData.getNotesArr = some notesList →
      extractMelodyNames notesList = .ok rawNames →
      (loadMelodyFromJSON st melodyData).1 = st ∨
        ((loadMelodyFromJSON st melodyData).1.notes =
          (calculateNotesAndFrequencies (dedupFirst rawNames)).2 ∧
         (loadMelodyFromJSON st melodyData).1.noteNames =
          (calculateNotesAndFrequencies (dedupFirst rawNames)).1 ∧
         ∀ n ∈ rawNames, (noteNameToMIDI n).isSome = true)) ∧
    (∀ (notesList : List Json) (rawNames : List String) (e : String),
      jsTruthy (melodyData.getField "tempo") →
      melodyData.getNotesArr = some notesList →
      extractMelodyNames notesList = .ok rawNames →
      (∀ n ∈ dedupFirst rawNames,
        n ∈ (calculateNotesAndFrequencies (dedupFirst rawNames)).1) →
      defaultNameStep melodyData = .error e →
      loadMelodyFromJSON st melodyData =
        ({ notes := (calculateNotesAndFrequencies (dedupFirst rawNames)).2,
           noteNames := (calculateNotesAndFrequencies (dedupFirst rawNames)).1,
           melodyGuide := melodyData }, some e)) := by
  rcases hNotes : melodyData.getNotesArr with - | notesList
  · have hres : loadMelodyFromJSON st melodyData =
        (st, some "Invalid melody format. Must have tempo and notes array.") := by
      rw [loadMelodyFromJSON, hNotes]
    refine ⟨?_, ?_, ?_, ?_, ?_, ?_, ?_⟩
    · intro _; exact ⟨by rw [hres], by rw [hres]; rfl⟩
    · intro _; exact ⟨by rw [hres], by rw [hres]; rfl⟩
    · intro nl e hsome _
      cases hsome
    · intro nl rn n hsome _ _ _
      cases hsome
    · intro hnone
      rw [hres] at hnone
      cases hnone
    · intro nl rn hsome _
      cases hsome
    · intro nl rn e _ hsome _ _ _
      cases hsome
  · by_cases hTempo : jsTruthy (melodyData.getField "tempo")
    · rcases hExtract : extractMelodyNames notesList with e | rawNames
      · have hres : loadMelodyFromJSON st melodyData = (st, some e) := by
          rw [loadMelodyFromJSON, hNotes]
          dsimp only
          rw [if_pos hTempo, hExtract]
        refine ⟨?_, ?_, ?_, ?_, ?_, ?_, ?_⟩
        · intro h; exact absurd hTempo h
        · intro h; cases h
        · intro _ _ _ _; exact ⟨by rw [hres], by rw [hres]; rfl⟩
        · intro nl rn n hsome hok _ _
          rw [Option.some.injEq] at hsome
          subst hsome
          rw [hExtract] at hok
          cases hok
        · intro hnone
          rw [hres] at hnone
          cases hnone
        · intro nl rn hsome hok
          rw [Option.some.injEq] at hsome
          subst hsome
          rw [hExtract] at hok
          cases hok
        · intro nl rn e' _ hsome hok _ _
          rw [Option.some.injEq] at hsome
          subst hsome
          rw [hExtract] at hok
          cases hok
      · by_cases hall : ∀ n ∈ dedupFirst rawNames,
          n ∈ (calculateNotesAndFrequencies (dedupFirst rawNames)).1
        · have hresolve : ∀ n ∈ rawNames, (noteNameToMIDI n).isSome = true := by
            intro n hn
            exact calculated_names_resolvable (hall n (mem_dedupFirst hn))
          rcases hName : defaultNameStep melodyData with e0 | guide
          · have hres : loadMelodyFromJSON st melodyData =
                ({ notes := (calculateNotesAndFrequencies (dedupFirst rawNames)).2,
                   noteNames := (calculateNotesAndFrequencies (dedupFirst rawNames)).1,
                   melodyGuide := melodyData }, some e0) := by
              rw [loadMelodyFromJSON, hNotes]
              dsimp only
              rw [if_pos hTempo, hExtract]
              dsimp only
              rw [if_pos hall, hName]
            refine ⟨?_, ?_, ?_, ?_, ?_, ?_, ?_⟩
            · intro h; exact absurd hTempo h
            · intro h; cases h
            · intro nl e hsome herr
              rw [Option.some.injEq] at hsome
              subst hsome
              rw [hExtract] at herr
              cases herr
            · intro nl rn n hsome hok hn hnone
              rw [Option.some.injEq] at hsome
              subst hsome
              rw [hExtract, Except.ok.injEq] at hok
              subst hok
              have := hresolve n hn
              rw [hnone] at this
              cases this
            · intro hnone
              rw [hres] at hnone
              cases hnone
            · intro nl rn hsome hok
              rw [Option.some.injEq] at hsome
              subst hsome
              rw [hExtract, Except.ok.injEq] at hok
              subst hok
              exact Or.inr ⟨by rw [hres], by rw [hres], hresolve⟩
            · intro nl rn e' _ hsome hok _ herr
              rw [Option.some.injEq] at hsome
              subst hsome
              rw [hExtract, Except.ok.injEq] at hok
              subst hok
              rw [Except.error.injEq] at herr
              subst herr
              exact hres
          · have hres : loadMelodyFromJSON st melodyData =
                ({ notes := (calculateNotesAndFrequencies (dedupFirst rawNames)).2,
                   noteNames := (calculateNotesAndFrequencies (dedupFirst rawNames)).1,
                   melodyGuide := guide }, none) := by
              rw [loadMelodyFromJSON, hNotes]
              dsimp only
              rw [if_pos hTempo, hExtract]
              dsimp only
              rw [if_pos hall, hName]
            refine ⟨?_, ?_, ?_, ?_, ?_, ?_, ?_⟩
            · intro h; exact absurd hTempo h
            · intro h; cases h
            · intro nl e hsome herr
              rw [Option.some.injEq] at hsome
              subst hsome
              rw [hExtract] at herr
              cases herr
            · intro nl rn n hsome hok hn hnone
              rw [Option.some.injEq] at hsome
              subst hsome
              rw [hExtract, Except.ok.injEq] at hok
              subst hok
              have := hresolve n hn
              rw [hnone] at this
              cases this
            · intro _ nl rn hsome hok
              rw [Option.some.injEq] at hsome
              subst hsome
              rw [hExtract, Except.ok.injEq] at hok
              subst hok
              exact ⟨by rw [hres], by rw [hres], ⟨guide, rfl, by rw [hres]⟩, hresolve⟩
            · intro nl rn hsome hok
              rw [Option.some.injEq] at hsome
              subst hsome
              rw [hExtract, Except.ok.injEq] at hok
              subst hok
              exact Or.inr ⟨by rw [hres], by rw [hres], hresolve⟩
            · intro nl rn e' _ hsome hok _ herr
              cases herr
        · have hres : loadMelodyFromJSON st melodyData =
              (st, some "Unable to calculate frequency for note.") := by
            rw [loadMelodyFromJSON, hNotes]
            dsimp only
            rw [if_pos hTempo, hExtract]
            dsimp only
            rw [if_neg hall]
          refine ⟨?_, ?_, ?_, ?_, ?_, ?_, ?_⟩
          · intro h; exact absurd hTempo h
          · intro h; cases h
          · intro nl e hsome herr
            rw [Option.some.injEq] at hsome
            subst hsome
            rw [hExtract] at herr
            cases herr
          · intro _ _ _ _ _ _ _; exact ⟨by rw [hres], by rw [hres]; rfl⟩
          · intro hnone
            rw [hres] at hnone
            cases hnone
          · intro nl rn hsome hok
            exact Or.inl (by rw [hres])
          · intro nl rn e' _ hsome hok hall' _
            rw [Option.some.injEq] at hsome
            subst hsome
            rw [hExtract, Except.ok.injEq] at hok
            subst hok
            exact absurd hall' hall
    · have hres : loadMelodyFromJSON st melodyData =
          (st, some "Invalid melody format. Must have tempo and notes array.") := by
        rw [loadMelodyFromJSON, hNotes]
        dsimp only
        rw [if_neg hTempo]
      refine ⟨?_, ?_, ?_, ?_, ?_, ?_, ?_⟩
      · intro _; exact ⟨by rw [hres], by rw [hres]; rfl⟩
      · intro h; cases h
      · intro _ _ _ _; exact ⟨by rw [hres], by rw [hres]; rfl⟩
      · intro _ _ _ _ _ _ _; exact ⟨by rw [hres], by rw [hres]; rfl⟩
      · intro hnone
        rw [hres] at hnone
        cases hnone
      · intro nl rn hsome hok
        exact Or.inl (by rw [hres])
      · intro nl rn e' hT _ _ _ _
        exact absurd hT hTempo

/-- **C8** counterexample.  The melody `{tempo: "60", notes: []}` lacks a
numeric tempo (it is a string), yet the code's truthiness-only check
accepts it: the load succeeds and replaces the note ladder, so the claim
"rejects ... whenever the parsed JSON lacks a numeric tempo" is false. -/
theorem C8_counterexample :
    (loadMelodyFromJSON ⟨[440], ["A4"], Json.null⟩
      (Json.obj [("tempo", Json.str "60"), ("notes", Json.arr [])])).2 = none ∧
    (loadMelodyFromJSON ⟨[440], ["A4"], Json.null⟩
      (Json.obj [("tempo", Json.str "60"), ("notes", Json.arr [])])).1.noteNames = [] ∧
    (MelodyState.noteNames ⟨[440], ["A4"], Json.null⟩) = ["A4"] := by
  have hNotes : (Json.obj [("tempo", Json.str "60"), ("notes", Json.arr [])]).getNotesArr
      = some [] := rfl
  have hTempo : jsTruthy ((Json.obj [("tempo", Json.str "60"),
      ("notes", Json.arr [])]).getField "tempo") := by
    show ("60" : String) ≠ ""
    decide
  have hnamefalsy : ¬ jsTruthy ((Json.obj [("tempo", Json.str "60"),
      ("notes", Json.arr [])]).getField "name") := by
    rw [show (Json.obj [("tempo", Json.str "60"),
      ("notes", Json.arr [])]).getField "name" = none from rfl]
    exact fun h => h
  have hname : defaultNameStep (Json.obj [("tempo", Json.str "60"), ("notes", Json.arr [])])
      = .ok ((Json.obj [("tempo", Json.str "60"), ("notes", Json.arr [])]).setField "name"
          (Json.str "Custom Melody")) := by
    rw [defaultNameStep, if_pos hnamefalsy]
  have hres : loadMelodyFromJSON ⟨[440], ["A4"], Json.null⟩
      (Json.obj [("tempo", Json.str "60"), ("notes", Json.arr [])]) =
      ({ notes := (calculateNotesAndFrequencies (dedupFirst [])).2,
         noteNames := (calculateNotesAndFrequencies (dedupFirst [])).1,
         melodyGuide := (Json.obj [("tempo", Json.str "60"),
           ("notes", Json.arr [])]).setField "name" (Json.str "Custom Melody") }, none) := by
    rw [loadMelodyFromJSON, hNotes]
    dsimp only
    rw [if_pos hTempo]
    rw [show extractMelodyNames [] = .ok [] from rfl]
    dsimp only
    rw [if_pos (by intro n hn; simp [dedupFirst] at hn), hname]
  refine ⟨by rw [hres], ?_, rfl⟩
  rw [hres]
  show (calculateNotesAndFrequencies (dedupFirst [])).1 = []
  rw [show dedupFirst [] = [] from rfl, calculateNotesAndFrequencies]
  rw [show buildNotePairs [] = [] from rfl, show addPaddingNotes [] = [] from rfl]
  rw [sortByFrequency, List.mergeSort_nil]
  rfl

/-- Witness for `C8_no_partial_load`: loading `{notes: []}` (no tempo at
all) is rejected and the prior ladder and melody guide are untouched. -/
theorem C8_no_partial_load_witness :
    ((loadMelodyFromJSON ⟨[440], ["A4"], Json.null⟩
      (Json.obj [("notes", Json.arr [])])).2).isSome = true ∧
    (loadMelodyFromJSON ⟨[440], ["A4"], Json.null⟩
      (Json.obj [("notes", Json.arr [])])).1 = ⟨[440], ["A4"], Json.null⟩ := by
  have hfalsy : ¬ jsTruthy ((Json.obj [("notes", Json.arr [])]).getField "tempo") := by
    rw [show (Json.obj [("notes", Json.arr [])]).getField "tempo" = none from rfl]
    exact fun h => h
  have h := (C8_no_partial_load ⟨[440], ["A4"], Json.null⟩
    (Json.obj [("notes", Json.arr [])])).1 hfalsy
  exact ⟨h.2, h.1⟩

end Waveform
